import Mathlib

/-!
Verification development for the PhishGuard client code: a shallow
embedding of the verdict-reconciliation and navigation-guard logic found
in `frontend/script.js`, `extension/api_client.js`,
`extension/navigation_guard.js`, `extension/config.js` and
`blocked_page.js`, together with theorems settling the specification
claims about that logic.

Conventions of the embedding:
* JS numbers are modelled as rationals (`ℚ`); `Math.round` is
  `⌊x + 1/2⌋` (round half toward +∞), which is exact for JS numbers in
  the ranges used here.
* JS strings are Lean `String`s; the string operations used by the code
  (`toLowerCase`, `startsWith`, `endsWith`, `includes`) are re-implemented
  on the character lists so that they are kernel-computable.
* `null`/`undefined` fields are `Option` values.
* The JS `Map` used as the extension's cache is an insertion-ordered
  association list with the exact `set`/`get`/`delete` semantics of
  `Map` (update-in-place keeps position, new keys append at the end).
* Asynchronous effects (storage writes, tab redirects, navigation events
  fired by redirects) are made explicit as data.
-/

/- ## JS primitives -/

/-- JS `Math.round`: round half toward positive infinity. -/
def mathRound (q : ℚ) : ℤ := ⌊q + 1/2⌋

/-- Character-list test: `p` is a leading segment of `s`. -/
def listIsPre : List Char → List Char → Bool
  | [], _ => true
  | _, [] => false
  | a :: as, b :: bs => a == b && listIsPre as bs

/-- JS `String.prototype.startsWith`. -/
def strStartsWith (s p : String) : Bool := listIsPre p.data s.data

/-- JS `String.prototype.endsWith`. -/
def strEndsWith (s p : String) : Bool := listIsPre p.data.reverse s.data.reverse

/-- Character-list test: `p` occurs contiguously inside `s`. -/
def listIsSub (p : List Char) : List Char → Bool
  | [] => listIsPre p []
  | c :: t => listIsPre p (c :: t) || listIsSub p t

/-- JS `String.prototype.includes`. -/
def strContains (s p : String) : Bool := listIsSub p.data s.data

/-- JS `String.prototype.toLowerCase` (ASCII, as used on hostnames/paths). -/
def strLower (s : String) : String := ⟨s.data.map Char.toLower⟩

/-- JS `a || b` for an optional number `a`: `a` when it is a non-zero
(truthy) number, otherwise `b`. -/
def jsOr (a : Option ℚ) (b : ℚ) : ℚ :=
  match a with
  | none => b
  | some x => if x = 0 then b else x

/- ## Frontend (`frontend/script.js`) -/

namespace Frontend

/-- `script.js` line 30: `const ML_PHISHING_THRESHOLD = 75`. -/
def ML_PHISHING_THRESHOLD : ℤ := 75

/-- `script.js` line 31: `const ML_SUSPICIOUS_THRESHOLD = 40`. -/
def ML_SUSPICIOUS_THRESHOLD : ℤ := 40

/-- The three classifications displayed by `displayResult`
(`statusText` PHISHING / SUSPICIOUS / SAFE). -/
inductive Classification
  | Safe
  | Suspicious
  | Phishing
deriving DecidableEq

/-- The flat `modules` map of a scan response: raw module scores,
each a number or absent. -/
structure ModulesFlat where
  ml : Option ℚ := none
  lexical : Option ℚ := none
  reputation : Option ℚ := none
  behavior : Option ℚ := none
  nlp : Option ℚ := none
deriving DecidableEq

/-- The nested `ensemble_modules` map of a scan response: each field is
the `.score` member of the corresponding `{score: number}` object
(`none` when the object or its score is missing). -/
structure EnsembleModules where
  ml_model : Option ℚ := none
  lexical : Option ℚ := none
  reputation : Option ℚ := none
  behavior : Option ℚ := none
  nlp : Option ℚ := none
deriving DecidableEq

/-- Backend-supplied `ensemble_contributions` map (percentages). -/
structure Contributions where
  ml : ℚ := 0
  lexical : ℚ := 0
  reputation : ℚ := 0
  behavior : ℚ := 0
  nlp : ℚ := 0
deriving DecidableEq

/-- Sum of the five per-module contributions. -/
def Contributions.total (c : Contributions) : ℚ :=
  c.ml + c.lexical + c.reputation + c.behavior + c.nlp

/-- The fields of a backend scan response that the frontend scoring
logic reads. -/
structure ScanData where
  modules : Option ModulesFlat := none
  ensemble_modules : Option EnsembleModules := none
  ml_confidence : Option ℚ := none
  ensemble_score : Option ℚ := none
  confidence : Option ℚ := none
  ensemble_contributions : Option Contributions := none
deriving DecidableEq

/-- Extracted per-module percentages (`extractModuleScores` result). -/
structure ModuleScores where
  ml : ℤ
  lexical : ℤ
  reputation : ℤ
  behavior : ℤ
  nlp : ℤ
deriving DecidableEq

/-- `script.js` lines 309-312, the `toPercent` helper inside
`extractModuleScores`: null ↦ 0; `v <= 1` ↦ `Math.round(v*100)`;
otherwise `Math.round(v)`. -/
def toPercent : Option ℚ → ℤ
  | none => 0
  | some v => if v ≤ 1 then mathRound (v * 100) else mathRound v

/-- `script.js` lines 308-341, `extractModuleScores`: flat `modules`
shape first, then nested `ensemble_modules`, else all zeros. -/
def extractModuleScores (data : ScanData) : ModuleScores :=
  match data.modules with
  | some m =>
    ⟨toPercent m.ml, toPercent m.lexical, toPercent m.reputation,
     toPercent m.behavior, toPercent m.nlp⟩
  | none =>
    match data.ensemble_modules with
    | some em =>
      ⟨toPercent em.ml_model, toPercent em.lexical, toPercent em.reputation,
       toPercent em.behavior, toPercent em.nlp⟩
    | none => ⟨0, 0, 0, 0, 0⟩

/-- The view of `data.modules || data.ensemble_modules || {}` taken by
`extractMLScore`: its (optional) flat `ml` field and its (optional)
`ml_model.score` field. -/
def mlFields (data : ScanData) : Option ℚ × Option ℚ :=
  match data.modules with
  | some m => (m.ml, none)
  | none =>
    match data.ensemble_modules with
    | some em => (none, em.ml_model)
    | none => (none, none)

/-- The scaling applied by `extractMLScore` to each candidate score:
`s <= 1 ? s * 100 : s`. -/
def scaleToPct (v : ℚ) : ℚ := if v ≤ 1 then v * 100 else v

/-- `script.js` lines 347-366, `extractMLScore`: prefer `modules.ml`,
then `modules.ml_model.score`, then `data.ml_confidence`, then the
falsy-chain `data.ensemble_score || data.confidence || 0`; scale to a
percentage and `Math.round`. -/
def extractMLScore (data : ScanData) : ℤ :=
  match (mlFields data).1 with
  | some v => mathRound (scaleToPct v)
  | none =>
    match (mlFields data).2 with
    | some s => mathRound (scaleToPct s)
    | none =>
      match data.ml_confidence with
      | some c => mathRound (scaleToPct c)
      | none =>
        mathRound (scaleToPct (jsOr data.ensemble_score (jsOr data.confidence 0)))

/-- `script.js` lines 385-397, the classification branch of
`displayResult`, applied to the ML confidence percentage. -/
def classifyStatus (mlConfidencePct : ℤ) : Classification :=
  if mlConfidencePct ≥ ML_PHISHING_THRESHOLD then Classification.Phishing
  else if mlConfidencePct ≥ ML_SUSPICIOUS_THRESHOLD then Classification.Suspicious
  else Classification.Safe

/-- The classification `displayResult` shows for a scan response:
`classifyStatus` of the extracted ML score. -/
def displayClassification (data : ScanData) : Classification :=
  classifyStatus (extractMLScore data)

/-- `script.js` lines 34-40, `MODULE_WEIGHTS`
(ml 0.60, lexical 0.15, reputation 0.15, behavior 0.05, nlp 0.05). -/
def MODULE_WEIGHTS : Contributions :=
  ⟨60/100, 15/100, 15/100, 5/100, 5/100⟩

/-- `script.js` lines 681-689: `rawContributions`, each module score
converted to the 0-1 range (`toDecimal`) and multiplied by its weight. -/
def rawContributions (s : ModuleScores) : Contributions :=
  ⟨(s.ml : ℚ) / 100 * MODULE_WEIGHTS.ml,
   (s.lexical : ℚ) / 100 * MODULE_WEIGHTS.lexical,
   (s.reputation : ℚ) / 100 * MODULE_WEIGHTS.reputation,
   (s.behavior : ℚ) / 100 * MODULE_WEIGHTS.behavior,
   (s.nlp : ℚ) / 100 * MODULE_WEIGHTS.nlp⟩

/-- `script.js` lines 692-708: normalize the raw contributions to
percentages when their total is positive, otherwise fall back to an
equal five-way split of 20 each. -/
def localContributions (s : ModuleScores) : Contributions :=
  let raw := rawContributions s
  let totalContribution := raw.total
  if totalContribution > 0 then
    ⟨raw.ml / totalContribution * 100,
     raw.lexical / totalContribution * 100,
     raw.reputation / totalContribution * 100,
     raw.behavior / totalContribution * 100,
     raw.nlp / totalContribution * 100⟩
  else
    ⟨20, 20, 20, 20, 20⟩

/-- `script.js` lines 674-709, the contribution mapping used by
`createEnsembleContributionChart`: `result.ensemble_contributions`
verbatim when present, otherwise the locally computed contributions. -/
def chartContributions (result : ScanData) : Contributions :=
  match result.ensemble_contributions with
  | some c => c
  | none => localContributions (extractModuleScores result)

/-- Replace the four non-ML module scores of a flat `modules` map. -/
def ModulesFlat.withOthers (m : ModulesFlat) (lex rep beh nl : Option ℚ) :
    ModulesFlat :=
  { m with lexical := lex, reputation := rep, behavior := beh, nlp := nl }

/-- Replace the four non-ML module scores of an `ensemble_modules` map. -/
def EnsembleModules.withOthers (m : EnsembleModules) (lex rep beh nl : Option ℚ) :
    EnsembleModules :=
  { m with lexical := lex, reputation := rep, behavior := beh, nlp := nl }

/-- Replace the four non-ML module scores of a scan response, leaving
every ML-score source untouched. -/
def ScanData.withOtherScores (data : ScanData) (lex rep beh nl : Option ℚ) :
    ScanData :=
  { data with
    modules := data.modules.map (fun m => m.withOthers lex rep beh nl),
    ensemble_modules :=
      data.ensemble_modules.map (fun m => m.withOthers lex rep beh nl) }

end Frontend

/- ## Extension (`extension/config.js`, `extension/api_client.js`) -/

namespace Ext

/-- `config.js`: the `WHITELIST` array of the whitelist-enabled
configuration variant. -/
def WHITELIST : List String :=
  ["localhost", "127.0.0.1", "0.0.0.0",
   "charusat.edu.in", "charusat.ac.in", "iitb.ac.in", "iitd.ac.in",
   "iitm.ac.in", "iitk.ac.in", "iisc.ac.in", "bits-pilani.ac.in",
   "dtu.ac.in", "vit.ac.in",
   "india.gov.in", "mygov.in", "uidai.gov.in", "incometax.gov.in",
   "rbi.org.in", "irctc.co.in",
   "sbi.co.in", "hdfcbank.com", "icicibank.com", "axisbank.com",
   "google.com", "youtube.com", "github.com", "microsoft.com",
   "apple.com", "amazon.com", "facebook.com", "twitter.com",
   "linkedin.com", "instagram.com", "wikipedia.org", "cloudflare.com",
   "mozilla.org"]

/-- `config.js`: `CACHE_TTL_MS = 15 * 60 * 1000`. -/
def CACHE_TTL_MS : ℤ := 15 * 60 * 1000

/-- The fields of a scan result that the extension reads or
synthesizes (`api_client.js` / `navigation_guard.js`). -/
structure ScanResult where
  url : String := ""
  classification : String := ""
  confidence : Option ℚ := none
  risk_level : Option String := none
  skipped : Bool := false
  whitelisted : Bool := false
  error : Bool := false
deriving DecidableEq

/-- One value of the cache `Map`: `{result, timestamp}`
(`api_client.js` lines 47-51). -/
structure CacheEntry where
  result : ScanResult
  timestamp : ℤ
deriving DecidableEq

/-- The cache `Map` as an insertion-ordered association list. -/
abbrev Cache := List (String × CacheEntry)

/-- JS `Map.prototype.get`. -/
def mapGet : Cache → String → Option CacheEntry
  | [], _ => none
  | p :: t, k => if p.1 = k then some p.2 else mapGet t k

/-- JS `Map.prototype.set`: update an existing key in place (keeping
its position), otherwise append at the end. -/
def mapSet : Cache → String → CacheEntry → Cache
  | [], k, v => [(k, v)]
  | p :: t, k, v => if p.1 = k then (k, v) :: t else p :: mapSet t k v

/-- JS `Map.prototype.delete` on a map (first entry with the key). -/
def mapDelete : Cache → String → Cache
  | [], _ => []
  | p :: t, k => if p.1 = k then t else p :: mapDelete t k

/-- `api_client.js` lines 29-42, `getCached`: a fresh entry's result, or
`null` — deleting the entry when its age exceeds the TTL. Returns the
result together with the possibly-updated cache. -/
def getCached (ttl now : ℤ) (cache : Cache) (url : String) :
    Option ScanResult × Cache :=
  match mapGet cache url with
  | none => (none, cache)
  | some cached =>
    if now - cached.timestamp > ttl then (none, mapDelete cache url)
    else (some cached.result, cache)

/-- `api_client.js` lines 47-58, `setCached`: store `{result, now}`
under `url`, then evict the oldest entry if the size exceeds 100. -/
def setCached (now : ℤ) (cache : Cache) (url : String) (result : ScanResult) :
    Cache :=
  let c1 := mapSet cache url ⟨result, now⟩
  if 100 < c1.length then
    match c1 with
    | [] => c1
    | first :: _ => mapDelete c1 first.1
  else c1

/-- The outcome of `new URL(url)`: hostname and pathname, or a thrown
exception (`none`). -/
structure URLInfo where
  raw : String
  parsed : Option (String × String) := none
deriving DecidableEq

/-- `api_client.js` lines 13-24, `isWhitelisted`: the lower-cased
hostname equals a whitelist entry or ends with `"." ++` the entry;
`false` when URL parsing throws. -/
def isWhitelisted (wl : List String) (u : URLInfo) : Bool :=
  match u.parsed with
  | none => false
  | some p =>
    let hostname := strLower p.1
    wl.any (fun domain =>
      hostname == domain || strEndsWith hostname ("." ++ domain))

/-- `api_client.js` lines 67-89: the search-engine result-page test of
`scanURL` (Google/Bing path starts with `/search`, Yahoo path contains
`/search`); `false` when URL parsing throws (the error is caught). -/
def isSearchPage (u : URLInfo) : Bool :=
  match u.parsed with
  | none => false
  | some p =>
    let hostname := strLower p.1
    let pathname := strLower p.2
    (strContains hostname "google." && strStartsWith pathname "/search") ||
    (strContains hostname "bing.com" && strStartsWith pathname "/search") ||
    (strContains hostname "yahoo.com" && strContains pathname "/search")

/-- The synthesized result for a skipped search-engine page
(`api_client.js` lines 79-85). -/
def skippedResult (url : String) : ScanResult :=
  { url := url, classification := "Legitimate", confidence := some 100,
    risk_level := some "low", skipped := true }

/-- The synthesized result for a whitelisted domain
(`api_client.js` lines 93-99). -/
def whitelistedResult (url : String) : ScanResult :=
  { url := url, classification := "Legitimate", confidence := some 100,
    risk_level := some "low", whitelisted := true }

/-- The synthesized result for a failed backend call
(`api_client.js` lines 133-139). -/
def errorResult (url : String) : ScanResult :=
  { url := url, classification := "Error", confidence := some 0,
    risk_level := some "unknown", error := true }

/-- How one interaction with the backend would resolve: a parsed OK
response, a non-OK HTTP status, a network failure/timeout, or a JSON
parse failure. -/
inductive BackendOutcome
  | ok (result : ScanResult)
  | httpError
  | networkError
  | parseError
deriving DecidableEq

/-- The observable outcome of one `scanURL` call: the returned result,
the cache afterwards, and whether the backend was actually fetched. -/
structure ScanOutput where
  result : ScanResult
  cache : Cache
  backendCalled : Bool
deriving DecidableEq

/-- `api_client.js` lines 64-141, `scanURL`: skip search-engine result
pages, then whitelisted domains, then try the cache, and only then call
the backend — caching only a successfully fetched and parsed response,
and converting every backend failure to the synthesized error result. -/
def scanURL (wl : List String) (ttl now : ℤ) (cache : Cache) (u : URLInfo)
    (outcome : BackendOutcome) : ScanOutput :=
  if isSearchPage u then ⟨skippedResult u.raw, cache, false⟩
  else if isWhitelisted wl u then ⟨whitelistedResult u.raw, cache, false⟩
  else
    match getCached ttl now cache u.raw with
    | (some cached, c1) => ⟨cached, c1, false⟩
    | (none, c1) =>
      match outcome with
      | BackendOutcome.ok result => ⟨result, setCached now c1 u.raw result, true⟩
      | _ => ⟨errorResult u.raw, c1, true⟩

/-- The scan results currently stored in the cache. -/
def cacheResults (cache : Cache) : List ScanResult :=
  cache.map (fun p => p.2.result)

/-- A result synthesized locally by `scanURL` rather than fetched from
the backend: a skipped, whitelisted, or error result. -/
def synthesized (r : ScanResult) : Bool :=
  r.skipped || r.whitelisted || r.error

end Ext

/- ## Navigation guard (`extension/navigation_guard.js`, `blocked_page.js`) -/

namespace Guard

open Ext

/-- The extension-internal URL of the warning page
(`chrome.runtime.getURL('blocked.html')`). -/
def blockedPageUrl : String := "chrome-extension://phishguard/blocked.html"

/-- One `webNavigation.onBeforeNavigate` event. -/
structure NavEvent where
  tabId : ℕ
  url : String
  frameId : ℕ
deriving DecidableEq

/-- The externally visible actions a navigation check can perform:
writing the `lastDetection` record to `chrome.storage.local`, and
redirecting a tab. -/
inductive Effect
  | setRecord (url : String) (result : ScanResult)
  | redirect (tabId : ℕ) (url : String)
deriving DecidableEq

/-- The guard's in-memory state (`navigation_guard.js` lines 7-8):
the pending `tabId-url` navigation keys and the set of tabs currently
being redirected to the blocked page. -/
structure GuardState where
  pendingNavigations : List (ℕ × String) := []
  blockedTabs : List ℕ := []
deriving DecidableEq

/-- The scheme filter of the `onBeforeNavigate` listener registration
(`navigation_guard.js` lines 15-18): only `http`/`https` URLs. -/
def isWebScheme (url : String) : Bool :=
  strStartsWith url "http://" || strStartsWith url "https://"

/-- `navigation_guard.js` lines 74-107, `blockNavigation`: mark the tab
as being redirected, store the detection record, and redirect the tab
to the blocked page — which itself fires a navigation event for that
tab. -/
def blockNavigation (s : GuardState) (tabId : ℕ) (url : String)
    (result : ScanResult) : GuardState × List Effect × List NavEvent :=
  ({ s with blockedTabs := tabId :: s.blockedTabs },
   [Effect.setRecord url result, Effect.redirect tabId blockedPageUrl],
   [⟨tabId, blockedPageUrl, 0⟩])

/-- `navigation_guard.js` lines 26-69, `handleNavigation`: ignore
sub-frame events, events for tabs being redirected, and duplicate
`(tab, url)` checks; otherwise consult the scorer (the resolution of
`apiClient.scanURL`) and block exactly when it returns classification
`"Phishing"`. -/
def handleNavigation (score : String → ScanResult) (s : GuardState)
    (e : NavEvent) : GuardState × List Effect × List NavEvent :=
  if e.frameId ≠ 0 then (s, [], [])
  else if e.tabId ∈ s.blockedTabs then (s, [], [])
  else if (e.tabId, e.url) ∈ s.pendingNavigations then (s, [], [])
  else
    let s1 := { s with
      pendingNavigations := (e.tabId, e.url) :: s.pendingNavigations }
    let result := score e.url
    if result.classification = "Phishing" then
      blockNavigation s1 e.tabId e.url result
    else (s1, [], [])

/-- One event delivery: the listener's scheme filter, then
`handleNavigation`. -/
def dispatchEvent (score : String → ScanResult) (s : GuardState)
    (e : NavEvent) : GuardState × List Effect × List NavEvent :=
  if isWebScheme e.url then handleNavigation score s e else (s, [], [])

/-- Run the event loop over a queue of navigation events, appending the
events fired by redirects; `fuel` bounds the number of steps. -/
def runQueue (score : String → ScanResult) :
    ℕ → GuardState → List NavEvent → List Effect
  | 0, _, _ => []
  | Nat.succ _, _, [] => []
  | Nat.succ n, s, e :: rest =>
    let step := dispatchEvent score s e
    step.2.1 ++ runQueue score n step.1 (rest ++ step.2.2)

/-- The blocked-page decision of `handleNavigation`:
`result.classification === 'Phishing'` blocks, anything else allows. -/
inductive Decision
  | Block
  | Allow
deriving DecidableEq

/-- `navigation_guard.js` lines 54-59: block iff the scan result's
classification is exactly `"Phishing"`. -/
def navDecision (result : ScanResult) : Decision :=
  if result.classification = "Phishing" then Decision.Block else Decision.Allow

/-- The `lastDetection` record written by `blockNavigation`
(`navigation_guard.js` lines 80-90) and read by `blocked_page.js`. -/
structure BlockRecord where
  url : String
  originalUrl : String
  classification : String
  confidence : ℚ
  risk_level : String
  timestamp : ℤ
deriving DecidableEq

/-- Build the `lastDetection` record: `confidence ?? 95`,
`risk_level ?? 'high'`. -/
def mkDetection (url : String) (result : ScanResult) (now : ℤ) : BlockRecord :=
  { url := url, originalUrl := url,
    classification := result.classification,
    confidence := result.confidence.getD 95,
    risk_level := result.risk_level.getD "high",
    timestamp := now }

/-- The extension's durable store for block records: the single
`chrome.storage.local` key `lastDetection`. -/
abbrev Storage := Option BlockRecord

/-- Apply one effect to the `lastDetection` storage key: a
`setRecord` overwrites it, a redirect leaves it unchanged. -/
def applyEffect (now : ℤ) (st : Storage) : Effect → Storage
  | Effect.setRecord url result => some (mkDetection url result now)
  | Effect.redirect _ _ => st

/-- Apply a sequence of effects to the storage, in order. -/
def applyEffects (now : ℤ) (st : Storage) (effects : List Effect) : Storage :=
  effects.foldl (applyEffect now) st

/-- The last `setRecord` effect in a list, if any. -/
def lastSetRecord : List Effect → Option (String × ScanResult)
  | [] => none
  | Effect.setRecord url r :: t => (lastSetRecord t).getD (url, r)
  | Effect.redirect _ _ :: t => lastSetRecord t

end Guard

/- ## Helper lemmas -/

theorem mlFields_withOtherScores (data : Frontend.ScanData)
    (lex rep beh nl : Option ℚ) :
    Frontend.mlFields (data.withOtherScores lex rep beh nl) =
      Frontend.mlFields data := by
  unfold Frontend.mlFields Frontend.ScanData.withOtherScores
  cases data.modules with
  | some m => simp [Frontend.ModulesFlat.withOthers]
  | none =>
    cases data.ensemble_modules with
    | some em => simp [Frontend.EnsembleModules.withOthers]
    | none => simp

theorem extractMLScore_withOtherScores (data : Frontend.ScanData)
    (lex rep beh nl : Option ℚ) :
    Frontend.extractMLScore (data.withOtherScores lex rep beh nl) =
      Frontend.extractMLScore data := by
  unfold Frontend.extractMLScore
  rw [mlFields_withOtherScores]
  rfl

/- ## Claim theorems -/

/-- C2: the verdict classifier maps a primary score percent to a
classification with fixed thresholds — at least 75 is Phishing, at
least 40 but below 75 is Suspicious, below 40 is Safe; in particular
classify 75 = Phishing, classify 74 = Suspicious, classify 40 =
Suspicious, classify 39 = Safe. -/
theorem classify_fixed_thresholds :
    (∀ s : ℤ, Frontend.classifyStatus s = Frontend.Classification.Phishing ↔ 75 ≤ s) ∧
    (∀ s : ℤ, Frontend.classifyStatus s = Frontend.Classification.Suspicious ↔
      40 ≤ s ∧ s < 75) ∧
    (∀ s : ℤ, Frontend.classifyStatus s = Frontend.Classification.Safe ↔ s < 40) ∧
    Frontend.classifyStatus 75 = Frontend.Classification.Phishing ∧
    Frontend.classifyStatus 74 = Frontend.Classification.Suspicious ∧
    Frontend.classifyStatus 40 = Frontend.Classification.Suspicious ∧
    Frontend.classifyStatus 39 = Frontend.Classification.Safe := by
  refine ⟨?_, ?_, ?_, by decide, by decide, by decide, by decide⟩ <;>
  · intro s
    simp only [Frontend.classifyStatus, Frontend.ML_PHISHING_THRESHOLD,
      Frontend.ML_SUSPICIOUS_THRESHOLD]
    split_ifs with h1 h2 <;> simp_all <;> omega

/-- C1: the displayed classification is a function of the extracted
primary (ML) score alone — two responses with the same extracted score
classify identically, varying the four non-ML module scores never
changes the classification, and a response with ml 0.3 and lexical 0.8
classifies as Safe. -/
theorem classification_ml_only :
    (∀ d1 d2 : Frontend.ScanData,
      Frontend.extractMLScore d1 = Frontend.extractMLScore d2 →
      Frontend.displayClassification d1 = Frontend.displayClassification d2) ∧
    (∀ (data : Frontend.ScanData) (lex rep beh nl : Option ℚ),
      Frontend.displayClassification (data.withOtherScores lex rep beh nl) =
        Frontend.displayClassification data) ∧
    Frontend.displayClassification
      { modules := some { ml := some (3/10), lexical := some (4/5) } } =
      Frontend.Classification.Safe := by
  refine ⟨?_, ?_, ?_⟩
  · intro d1 d2 h
    unfold Frontend.displayClassification
    rw [h]
  · intro data lex rep beh nl
    unfold Frontend.displayClassification
    rw [extractMLScore_withOtherScores]
  · have h : Frontend.extractMLScore
        { modules := some { ml := some (3/10), lexical := some (4/5) } } = 30 := by
      unfold Frontend.extractMLScore Frontend.mlFields
      norm_num [Frontend.scaleToPct, mathRound]
    unfold Frontend.displayClassification
    rw [h]
    decide

/-- C1 witness: the first two conjuncts instantiated at concrete
responses. -/
theorem classification_ml_only_witness :
    Frontend.displayClassification { ml_confidence := some (9/10) } =
      Frontend.displayClassification { ml_confidence := some (9/10) } ∧
    Frontend.displayClassification
      ((Frontend.ScanData.mk (some { ml := some (3/10) }) none none none none
        none).withOtherScores (some (4/5)) (some 1) (some 1) (some 1)) =
      Frontend.displayClassification
        (Frontend.ScanData.mk (some { ml := some (3/10) }) none none none none
          none) :=
  ⟨classification_ml_only.1 _ _ rfl,
   classification_ml_only.2.1 _ (some (4/5)) (some 1) (some 1) (some 1)⟩

/-- C5 counterexample: the claim's clause "for every r outside [0,1],
normalize(r) = round(r)" fails at r = -1 — the code's branch condition
is `v <= 1`, so -1 is scaled by 100 and normalizes to -100, not
round(-1) = -1. -/
theorem toPercent_negative_counterexample :
    Frontend.toPercent (some (-1)) = -100 ∧ mathRound (-1) = -1 ∧
    Frontend.toPercent (some (-1)) ≠ mathRound (-1) := by
  refine ⟨?_, ?_, ?_⟩ <;> norm_num [Frontend.toPercent, mathRound]

/-- C5 (amended): the score normalizer is total over any number or
null; normalize(null) = 0; for every r ≤ 1 — in particular for every r
in [0,1] — normalize(r) = round(r·100); and for every r > 1,
normalize(r) = round(r). -/
theorem toPercent_normalization :
    Frontend.toPercent none = 0 ∧
    (∀ r : ℚ, r ≤ 1 → Frontend.toPercent (some r) = mathRound (r * 100)) ∧
    (∀ r : ℚ, 0 ≤ r → r ≤ 1 → Frontend.toPercent (some r) = mathRound (r * 100)) ∧
    (∀ r : ℚ, 1 < r → Frontend.toPercent (some r) = mathRound r) := by
  refine ⟨rfl, ?_, ?_, ?_⟩
  · intro r hr
    simp [Frontend.toPercent, hr]
  · intro r _ hr
    simp [Frontend.toPercent, hr]
  · intro r hr
    simp [Frontend.toPercent, not_le.mpr hr]

/-- C5 witness: the amended normalizer statement at r = 1/2 and
r = 3/2. -/
theorem toPercent_normalization_witness :
    ((1:ℚ)/2 ≤ 1 ∧ Frontend.toPercent (some (1/2)) = mathRound (1/2 * 100)) ∧
    ((0:ℚ) ≤ 1/2 ∧ Frontend.toPercent (some (1/2)) = mathRound (1/2 * 100)) ∧
    ((1:ℚ) < 3/2 ∧ Frontend.toPercent (some (3/2)) = mathRound (3/2)) :=
  ⟨⟨by norm_num, toPercent_normalization.2.1 (1/2) (by norm_num)⟩,
   ⟨by norm_num, toPercent_normalization.2.2.1 (1/2) (by norm_num) (by norm_num)⟩,
   ⟨by norm_num, toPercent_normalization.2.2.2 (3/2) (by norm_num)⟩⟩

/-- C6 counterexample: backend-supplied contributions are used verbatim
with no sum-to-100 validation and no fallback — a response whose
`ensemble_contributions` sum to 10 is displayed as-is, violating the
claimed within-0.1-of-100 guarantee. -/
theorem contributions_unvalidated_counterexample :
    (Frontend.chartContributions
      { ensemble_contributions := some { ml := 10 } }).total = 10 ∧
    ¬ |(Frontend.chartContributions
        { ensemble_contributions := some { ml := 10 } }).total - 100| ≤ 1/10 := by
  constructor
  · norm_num [Frontend.chartContributions, Frontend.Contributions.total]
  · norm_num [Frontend.chartContributions, Frontend.Contributions.total]

theorem localContributions_total (s : Frontend.ModuleScores) :
    (Frontend.localContributions s).total = 100 := by
  unfold Frontend.localContributions
  by_cases ht : (Frontend.rawContributions s).total > 0
  · rw [if_pos ht]
    have hne : (Frontend.rawContributions s).total ≠ 0 := ne_of_gt ht
    simp only [Frontend.Contributions.total] at hne ⊢
    field_simp
    ring
  · rw [if_neg ht]
    simp only [Frontend.Contributions.total]
    norm_num

/-- C6 (amended): when the backend supplies no pre-computed
contributions, the locally computed contribution mapping sums to
exactly 100 — normalized from score/100 × weight, with an equal
five-way split in the all-zero (non-positive total) degenerate case;
backend-supplied contributions, however, are used verbatim without any
sum validation. -/
theorem local_contributions_sum_100 :
    (∀ result : Frontend.ScanData, result.ensemble_contributions = none →
      (Frontend.chartContributions result).total = 100) ∧
    (∀ (result : Frontend.ScanData) (c : Frontend.Contributions),
      result.ensemble_contributions = some c →
      Frontend.chartContributions result = c) := by
  constructor
  · intro result h
    simp only [Frontend.chartContributions, h]
    exact localContributions_total (Frontend.extractModuleScores result)
  · intro result c h
    simp [Frontend.chartContributions, h]

/-- C6 witness: the amended statement at an all-default response (local
equal split sums to 100) and at a response with verbatim backend
contributions. -/
theorem local_contributions_sum_100_witness :
    ((Frontend.ScanData.mk none none none none none none).ensemble_contributions =
        none ∧
      (Frontend.chartContributions
        (Frontend.ScanData.mk none none none none none none)).total = 100) ∧
    (Frontend.chartContributions
        { ensemble_contributions := some { ml := 10 } } =
      { ml := 10 }) :=
  ⟨⟨rfl, local_contributions_sum_100.1 _ rfl⟩,
   local_contributions_sum_100.2 _ { ml := 10 } rfl⟩

theorem mapGet_mapSet_self (c : Ext.Cache) (k : String) (v : Ext.CacheEntry) :
    Ext.mapGet (Ext.mapSet c k v) k = some v := by
  induction c with
  | nil => simp [Ext.mapSet, Ext.mapGet]
  | cons p t ih =>
    by_cases h : p.1 = k
    · simp [Ext.mapSet, h, Ext.mapGet]
    · simp [Ext.mapSet, h, Ext.mapGet, ih]

theorem mapGet_cons_none (p : String × Ext.CacheEntry) (t : Ext.Cache)
    (k : String) :
    Ext.mapGet (p :: t) k = none ↔ p.1 ≠ k ∧ Ext.mapGet t k = none := by
  by_cases h : p.1 = k <;> simp [Ext.mapGet, h]

theorem mapSet_of_get_none (c : Ext.Cache) (k : String) (v : Ext.CacheEntry)
    (h : Ext.mapGet c k = none) : Ext.mapSet c k v = c ++ [(k, v)] := by
  induction c with
  | nil => rfl
  | cons p t ih =>
    rw [mapGet_cons_none] at h
    simp [Ext.mapSet, h.1, ih h.2]

theorem length_mapSet_of_get_some (c : Ext.Cache) (k : String)
    (e v : Ext.CacheEntry) (h : Ext.mapGet c k = some e) :
    (Ext.mapSet c k v).length = c.length := by
  induction c with
  | nil => simp [Ext.mapGet] at h
  | cons p t ih =>
    by_cases hp : p.1 = k
    · simp [Ext.mapSet, hp]
    · simp only [Ext.mapGet, hp, if_neg] at h
      simp [Ext.mapSet, hp, ih h]

theorem mapGet_append_right (c l : Ext.Cache) (k : String)
    (h : Ext.mapGet c k = none) :
    Ext.mapGet (c ++ l) k = Ext.mapGet l k := by
  induction c with
  | nil => rfl
  | cons p t ih =>
    rw [mapGet_cons_none] at h
    simp [Ext.mapGet, h.1, ih h.2]

theorem mapDelete_cons_self (p : String × Ext.CacheEntry) (t : Ext.Cache) :
    Ext.mapDelete (p :: t) p.1 = t := by
  simp [Ext.mapDelete]

theorem mapGet_setCached_self (now : ℤ) (c : Ext.Cache) (url : String)
    (r : Ext.ScanResult) (hlen : c.length ≤ 100) :
    Ext.mapGet (Ext.setCached now c url r) url = some ⟨r, now⟩ := by
  unfold Ext.setCached
  cases hget : Ext.mapGet c url with
  | some e =>
    have hl : (Ext.mapSet c url ⟨r, now⟩).length = c.length :=
      length_mapSet_of_get_some c url e ⟨r, now⟩ hget
    rw [if_neg (by omega)]
    exact mapGet_mapSet_self c url ⟨r, now⟩
  | none =>
    have hset : Ext.mapSet c url ⟨r, now⟩ = c ++ [(url, ⟨r, now⟩)] :=
      mapSet_of_get_none c url ⟨r, now⟩ hget
    by_cases hevict : 100 < (Ext.mapSet c url ⟨r, now⟩).length
    · rw [if_pos hevict]
      cases hc : c with
      | nil =>
        subst hc
        simp [hset] at hevict
      | cons p t =>
        subst hc
        rw [hset, List.cons_append]
        dsimp only
        rw [mapDelete_cons_self p (t ++ [(url, ({ result := r, timestamp := now } : Ext.CacheEntry))])]
        rw [mapGet_cons_none] at hget
        rw [mapGet_append_right t _ url hget.2]
        simp [Ext.mapGet]
    · rw [if_neg hevict, hset, mapGet_append_right c _ url hget]
      simp [Ext.mapGet]

/-- C7: decision-cache round trip and expiry — a `put(url, v)` followed
by a `get(url)` at most TTL later returns `v`; once strictly more than
the TTL has elapsed since insertion the same `get` returns null; and in
general `get` only ever returns the result of an entry whose age is at
most the TTL (no entry older than the TTL is ever returned). -/
theorem cache_ttl_roundtrip :
    (∀ (ttl t tq : ℤ) (c : Ext.Cache) (url : String) (r : Ext.ScanResult),
      c.length ≤ 100 → tq - t ≤ ttl →
      (Ext.getCached ttl tq (Ext.setCached t c url r) url).1 = some r) ∧
    (∀ (ttl t tq : ℤ) (c : Ext.Cache) (url : String) (r : Ext.ScanResult),
      c.length ≤ 100 → tq - t > ttl →
      (Ext.getCached ttl tq (Ext.setCached t c url r) url).1 = none) ∧
    (∀ (ttl tq : ℤ) (c : Ext.Cache) (url : String) (r : Ext.ScanResult),
      (Ext.getCached ttl tq c url).1 = some r →
      ∃ e : Ext.CacheEntry, Ext.mapGet c url = some e ∧ e.result = r ∧
        tq - e.timestamp ≤ ttl) := by
  refine ⟨?_, ?_, ?_⟩
  · intro ttl t tq c url r hlen hage
    unfold Ext.getCached
    rw [mapGet_setCached_self t c url r hlen]
    dsimp only
    rw [if_neg (by simpa using not_lt.mpr hage)]
  · intro ttl t tq c url r hlen hage
    unfold Ext.getCached
    rw [mapGet_setCached_self t c url r hlen]
    dsimp only
    rw [if_pos (by simpa using hage)]
  · intro ttl tq c url r hget
    unfold Ext.getCached at hget
    cases he : Ext.mapGet c url with
    | none => rw [he] at hget; simp at hget
    | some e =>
      rw [he] at hget
      dsimp only at hget
      by_cases hold : tq - e.timestamp > ttl
      · rw [if_pos hold] at hget
        simp at hget
      · rw [if_neg hold] at hget
        simp only [Option.some.injEq] at hget
        exact ⟨e, rfl, hget.symm ▸ rfl, by omega⟩

/-- C7 witness: the round trip and the expiry at the concrete TTL of
15 minutes, with a one-entry cache. -/
theorem cache_ttl_roundtrip_witness :
    (([] : Ext.Cache).length ≤ 100 ∧ (600000 : ℤ) - 0 ≤ Ext.CACHE_TTL_MS ∧
      (Ext.getCached Ext.CACHE_TTL_MS 600000
        (Ext.setCached 0 [] "http://u.test/" (Ext.errorResult "http://u.test/"))
        "http://u.test/").1 = some (Ext.errorResult "http://u.test/")) ∧
    ((1000000 : ℤ) - 0 > Ext.CACHE_TTL_MS ∧
      (Ext.getCached Ext.CACHE_TTL_MS 1000000
        (Ext.setCached 0 [] "http://u.test/" (Ext.errorResult "http://u.test/"))
        "http://u.test/").1 = none) :=
  ⟨⟨by simp, by norm_num [Ext.CACHE_TTL_MS],
    cache_ttl_roundtrip.1 Ext.CACHE_TTL_MS 0 600000 [] "http://u.test/" _
      (by simp) (by norm_num [Ext.CACHE_TTL_MS])⟩,
   ⟨by norm_num [Ext.CACHE_TTL_MS],
    cache_ttl_roundtrip.2.1 Ext.CACHE_TTL_MS 0 1000000 [] "http://u.test/" _
      (by simp) (by norm_num [Ext.CACHE_TTL_MS])⟩⟩

/-- C8: for every URL that is whitelisted (hostname equals or is a
subdomain of an allow-list entry), `scanURL` never calls the backend
and returns classification Legitimate with confidence 100. -/
theorem whitelist_never_calls_backend :
    ∀ (wl : List String) (ttl now : ℤ) (c : Ext.Cache) (u : Ext.URLInfo)
      (outcome : Ext.BackendOutcome),
      Ext.isWhitelisted wl u = true →
      (Ext.scanURL wl ttl now c u outcome).backendCalled = false ∧
      (Ext.scanURL wl ttl now c u outcome).result.classification = "Legitimate" ∧
      (Ext.scanURL wl ttl now c u outcome).result.confidence = some 100 := by
  intro wl ttl now c u outcome hw
  unfold Ext.scanURL
  by_cases hs : Ext.isSearchPage u
  · simp [hs, Ext.skippedResult]
  · simp [hs, hw, Ext.whitelistedResult]

/-- C8 witness: `https://github.com/x` matches the configured
allow-list entry `github.com`, so the backend is not called and the
result is Legitimate with confidence 100. -/
theorem whitelist_never_calls_backend_witness :
    Ext.isWhitelisted Ext.WHITELIST
      ⟨"https://github.com/x", some ("github.com", "/x")⟩ = true ∧
    (Ext.scanURL Ext.WHITELIST Ext.CACHE_TTL_MS 0 []
      ⟨"https://github.com/x", some ("github.com", "/x")⟩
      Ext.BackendOutcome.networkError).backendCalled = false ∧
    (Ext.scanURL Ext.WHITELIST Ext.CACHE_TTL_MS 0 []
      ⟨"https://github.com/x", some ("github.com", "/x")⟩
      Ext.BackendOutcome.networkError).result.classification = "Legitimate" ∧
    (Ext.scanURL Ext.WHITELIST Ext.CACHE_TTL_MS 0 []
      ⟨"https://github.com/x", some ("github.com", "/x")⟩
      Ext.BackendOutcome.networkError).result.confidence = some 100 :=
  ⟨by decide,
   (whitelist_never_calls_backend Ext.WHITELIST Ext.CACHE_TTL_MS 0 []
      ⟨"https://github.com/x", some ("github.com", "/x")⟩
      Ext.BackendOutcome.networkError (by decide)).1,
   (whitelist_never_calls_backend Ext.WHITELIST Ext.CACHE_TTL_MS 0 []
      ⟨"https://github.com/x", some ("github.com", "/x")⟩
      Ext.BackendOutcome.networkError (by decide)).2.1,
   (whitelist_never_calls_backend Ext.WHITELIST Ext.CACHE_TTL_MS 0 []
      ⟨"https://github.com/x", some ("github.com", "/x")⟩
      Ext.BackendOutcome.networkError (by decide)).2.2⟩

/-- C3: the navigation interceptor blocks exactly when the scan
result's classification equals "Phishing" (Suspicious and Legitimate
pass through), and whenever the backend is actually consulted and the
call fails (non-OK status, network failure/timeout, or parse failure)
the synthesized result yields Allow — an error never causes a block. -/
theorem block_iff_phishing_fail_open :
    (∀ r : Ext.ScanResult,
      Guard.navDecision r = Guard.Decision.Block ↔
        r.classification = "Phishing") ∧
    (∀ (wl : List String) (ttl now : ℤ) (c : Ext.Cache) (u : Ext.URLInfo)
      (outcome : Ext.BackendOutcome),
      (outcome = Ext.BackendOutcome.httpError ∨
        outcome = Ext.BackendOutcome.networkError ∨
        outcome = Ext.BackendOutcome.parseError) →
      (Ext.scanURL wl ttl now c u outcome).backendCalled = true →
      Guard.navDecision (Ext.scanURL wl ttl now c u outcome).result =
        Guard.Decision.Allow) := by
  constructor
  · intro r
    unfold Guard.navDecision
    by_cases h : r.classification = "Phishing" <;> simp [h]
  · intro wl ttl now c u outcome herr hcall
    unfold Ext.scanURL at hcall ⊢
    by_cases hs : Ext.isSearchPage u
    · simp [hs] at hcall
    · by_cases hw : Ext.isWhitelisted wl u
      · simp [hs, hw] at hcall
      · simp only [hs, hw, Bool.false_eq_true, if_false] at hcall ⊢
        rcases hg : Ext.getCached ttl now c u.raw with ⟨og, c1⟩
        cases og with
        | some cached =>
          rw [hg] at hcall
          dsimp only at hcall
          exact absurd hcall Bool.false_ne_true
        | none =>
          rcases herr with h | h | h <;> subst h <;>
            simp [Guard.navDecision, Ext.errorResult]

/-- C3 witness: a backend network error on a non-whitelisted,
non-search URL calls the backend and yields Allow. -/
theorem block_iff_phishing_fail_open_witness :
    (Ext.BackendOutcome.networkError = Ext.BackendOutcome.httpError ∨
      Ext.BackendOutcome.networkError = Ext.BackendOutcome.networkError ∨
      Ext.BackendOutcome.networkError = Ext.BackendOutcome.parseError) ∧
    (Ext.scanURL [] Ext.CACHE_TTL_MS 0 []
      ⟨"http://evil.test/login", some ("evil.test", "/login")⟩
      Ext.BackendOutcome.networkError).backendCalled = true ∧
    Guard.navDecision
      (Ext.scanURL [] Ext.CACHE_TTL_MS 0 []
        ⟨"http://evil.test/login", some ("evil.test", "/login")⟩
        Ext.BackendOutcome.networkError).result = Guard.Decision.Allow :=
  ⟨Or.inr (Or.inl rfl), by decide,
   block_iff_phishing_fail_open.2 [] Ext.CACHE_TTL_MS 0 []
     ⟨"http://evil.test/login", some ("evil.test", "/login")⟩
     Ext.BackendOutcome.networkError (Or.inr (Or.inl rfl)) (by decide)⟩

theorem mem_cacheResults_mapSet (c : Ext.Cache) (k : String)
    (v : Ext.CacheEntry) (r : Ext.ScanResult)
    (h : r ∈ Ext.cacheResults (Ext.mapSet c k v)) :
    r ∈ Ext.cacheResults c ∨ r = v.result := by
  induction c with
  | nil =>
    simp [Ext.mapSet, Ext.cacheResults] at h
    exact Or.inr h
  | cons p t ih =>
    by_cases hp : p.1 = k
    · simp only [Ext.mapSet, if_pos hp, Ext.cacheResults, List.map_cons,
        List.mem_cons] at h ⊢
      rcases h with h | h
      · exact Or.inr h
      · exact Or.inl (Or.inr h)
    · simp only [Ext.mapSet, if_neg hp, Ext.cacheResults, List.map_cons,
        List.mem_cons] at h ⊢
      rcases h with h | h
      · exact Or.inl (Or.inl h)
      · rcases ih h with h2 | h2
        · exact Or.inl (Or.inr h2)
        · exact Or.inr h2

theorem mem_cacheResults_mapDelete (c : Ext.Cache) (k : String)
    (r : Ext.ScanResult) (h : r ∈ Ext.cacheResults (Ext.mapDelete c k)) :
    r ∈ Ext.cacheResults c := by
  induction c with
  | nil => simpa [Ext.mapDelete] using h
  | cons p t ih =>
    by_cases hp : p.1 = k
    · simp only [Ext.mapDelete, if_pos hp] at h
      simp only [Ext.cacheResults, List.map_cons, List.mem_cons]
      exact Or.inr h
    · simp only [Ext.mapDelete, if_neg hp, Ext.cacheResults, List.map_cons,
        List.mem_cons] at h ⊢
      rcases h with h | h
      · exact Or.inl h
      · exact Or.inr (ih h)

theorem mem_cacheResults_setCached (now : ℤ) (c : Ext.Cache) (url : String)
    (res : Ext.ScanResult) (r : Ext.ScanResult)
    (h : r ∈ Ext.cacheResults (Ext.setCached now c url res)) :
    r ∈ Ext.cacheResults c ∨ r = res := by
  unfold Ext.setCached at h
  by_cases hevict : 100 < (Ext.mapSet c url ⟨res, now⟩).length
  · rw [if_pos hevict] at h
    cases hm : Ext.mapSet c url ⟨res, now⟩ with
    | nil => rw [hm] at h; simp [Ext.cacheResults] at h
    | cons first tail =>
      rw [hm] at h
      dsimp only at h
      have h2 : r ∈ Ext.cacheResults (Ext.mapSet c url ⟨res, now⟩) := by
        rw [hm]
        exact mem_cacheResults_mapDelete _ _ _ h
      exact mem_cacheResults_mapSet c url ⟨res, now⟩ r h2
  · rw [if_neg hevict] at h
    exact mem_cacheResults_mapSet c url ⟨res, now⟩ r h

theorem getCached_snd_subset (ttl now : ℤ) (c : Ext.Cache) (url : String)
    (r : Ext.ScanResult)
    (h : r ∈ Ext.cacheResults (Ext.getCached ttl now c url).2) :
    r ∈ Ext.cacheResults c := by
  unfold Ext.getCached at h
  cases he : Ext.mapGet c url with
  | none => rw [he] at h; exact h
  | some e =>
    rw [he] at h
    dsimp only at h
    by_cases hold : now - e.timestamp > ttl
    · rw [if_pos hold] at h
      exact mem_cacheResults_mapDelete c url r h
    · rw [if_neg hold] at h
      exact h

theorem mapGet_result_mem (c : Ext.Cache) (url : String) (e : Ext.CacheEntry)
    (h : Ext.mapGet c url = some e) : e.result ∈ Ext.cacheResults c := by
  induction c with
  | nil => simp [Ext.mapGet] at h
  | cons p t ih =>
    by_cases hp : p.1 = url
    · simp only [Ext.mapGet, if_pos hp, Option.some.injEq] at h
      subst h
      simp [Ext.cacheResults]
    · simp only [Ext.mapGet, if_neg hp] at h
      simp only [Ext.cacheResults, List.map_cons, List.mem_cons]
      exact Or.inr (ih h)

theorem scanURL_cache_provenance (wl : List String) (ttl now : ℤ)
    (c : Ext.Cache) (u : Ext.URLInfo) (outcome : Ext.BackendOutcome)
    (r : Ext.ScanResult)
    (h : r ∈ Ext.cacheResults (Ext.scanURL wl ttl now c u outcome).cache) :
    r ∈ Ext.cacheResults c ∨ outcome = Ext.BackendOutcome.ok r := by
  unfold Ext.scanURL at h
  by_cases hs : Ext.isSearchPage u
  · simp only [hs, if_true] at h
    exact Or.inl h
  · by_cases hw : Ext.isWhitelisted wl u
    · simp only [hs, hw, Bool.false_eq_true, if_false, if_true] at h
      exact Or.inl h
    · simp only [hs, hw, Bool.false_eq_true, if_false] at h
      rcases hg : Ext.getCached ttl now c u.raw with ⟨og, c1⟩
      rw [hg] at h
      have hc1 : ∀ x : Ext.ScanResult, x ∈ Ext.cacheResults c1 →
          x ∈ Ext.cacheResults c := by
        intro x hx
        exact getCached_snd_subset ttl now c u.raw x (by rw [hg]; exact hx)
      cases og with
      | some cached =>
        dsimp only at h
        exact Or.inl (hc1 r h)
      | none =>
        cases outcome with
        | ok res =>
          dsimp only at h
          rcases mem_cacheResults_setCached now c1 u.raw res r h with h2 | h2
          · exact Or.inl (hc1 r h2)
          · subst h2; exact Or.inr rfl
        | httpError => dsimp only at h; exact Or.inl (hc1 r h)
        | networkError => dsimp only at h; exact Or.inl (hc1 r h)
        | parseError => dsimp only at h; exact Or.inl (hc1 r h)

/-- C10: only successful backend responses are ever stored in the
decision cache — every cached result either predates the scan or is the
backend's OK response; hence if the cache holds no synthesized
(skipped/whitelisted/error) results and the backend's OK responses are
not synthesized, the cache never comes to hold one, and a cache hit
never yields a skipped, whitelisted, or error verdict; the three
synthesized results do carry their respective flags. -/
theorem cache_only_backend_results :
    (∀ (wl : List String) (ttl now : ℤ) (c : Ext.Cache) (u : Ext.URLInfo)
      (outcome : Ext.BackendOutcome) (r : Ext.ScanResult),
      r ∈ Ext.cacheResults (Ext.scanURL wl ttl now c u outcome).cache →
      r ∈ Ext.cacheResults c ∨ outcome = Ext.BackendOutcome.ok r) ∧
    (∀ (wl : List String) (ttl now : ℤ) (c : Ext.Cache) (u : Ext.URLInfo)
      (outcome : Ext.BackendOutcome),
      (∀ x ∈ Ext.cacheResults c, Ext.synthesized x = false) →
      (∀ x, outcome = Ext.BackendOutcome.ok x → Ext.synthesized x = false) →
      ∀ r ∈ Ext.cacheResults (Ext.scanURL wl ttl now c u outcome).cache,
        Ext.synthesized r = false) ∧
    (∀ (ttl now : ℤ) (c : Ext.Cache) (url : String) (r : Ext.ScanResult),
      (∀ x ∈ Ext.cacheResults c, Ext.synthesized x = false) →
      (Ext.getCached ttl now c url).1 = some r → Ext.synthesized r = false) ∧
    (∀ url : String, Ext.synthesized (Ext.skippedResult url) = true ∧
      Ext.synthesized (Ext.whitelistedResult url) = true ∧
      Ext.synthesized (Ext.errorResult url) = true) := by
  refine ⟨scanURL_cache_provenance, ?_, ?_, ?_⟩
  · intro wl ttl now c u outcome hc hok r hr
    rcases scanURL_cache_provenance wl ttl now c u outcome r hr with h | h
    · exact hc r h
    · exact hok r h
  · intro ttl now c url r hc hget
    unfold Ext.getCached at hget
    cases he : Ext.mapGet c url with
    | none => rw [he] at hget; simp at hget
    | some e =>
      rw [he] at hget
      dsimp only at hget
      by_cases hold : now - e.timestamp > ttl
      · rw [if_pos hold] at hget; simp at hget
      · rw [if_neg hold] at hget
        simp only [Option.some.injEq] at hget
        subst hget
        exact hc e.result (mapGet_result_mem c url e he)
  · intro url
    exact ⟨rfl, rfl, rfl⟩

/-- C10 witness: a concrete run — a whitelisted scan leaves the empty
cache empty, and an empty cache satisfies the no-synthesized-results
invariant after a backend OK scan. -/
theorem cache_only_backend_results_witness :
    ((Ext.scanURL Ext.WHITELIST Ext.CACHE_TTL_MS 0 []
        ⟨"https://github.com/x", some ("github.com", "/x")⟩
        Ext.BackendOutcome.networkError).cache = [] ∧
      ∀ r ∈ Ext.cacheResults
        (Ext.scanURL [] Ext.CACHE_TTL_MS 0 []
          ⟨"http://a.test/", some ("a.test", "/")⟩
          (Ext.BackendOutcome.ok
            { url := "http://a.test/", classification := "Phishing" })).cache,
        Ext.synthesized r = false) :=
  ⟨by decide,
   cache_only_backend_results.2.1 [] Ext.CACHE_TTL_MS 0 []
     ⟨"http://a.test/", some ("a.test", "/")⟩
     (Ext.BackendOutcome.ok
       { url := "http://a.test/", classification := "Phishing" })
     (by intro x hx; simp [Ext.cacheResults] at hx)
     (by intro x hx; cases hx; rfl)⟩

theorem runQueue_empty (score : String → Ext.ScanResult) (fuel : ℕ)
    (s : Guard.GuardState) : Guard.runQueue score fuel s [] = [] := by
  cases fuel <;> rfl

theorem isWebScheme_blockedPageUrl :
    Guard.isWebScheme Guard.blockedPageUrl = false := by
  decide

/-- C4: with a scorer that classifies the target URL as Phishing, a
fresh main-frame navigation produces exactly one detection-record write
and exactly one redirect to the warning page — the navigation event
fired by that redirect is not re-intercepted, so no further record or
redirect follows (no redirect loop); moreover any event for a tab
marked as being redirected is dropped without effects. -/
theorem phishing_block_exactly_one_redirect :
    (∀ (score : String → Ext.ScanResult) (tab : ℕ) (url : String) (n : ℕ),
      Guard.isWebScheme url = true →
      (score url).classification = "Phishing" →
      Guard.runQueue score (n + 2) {} [⟨tab, url, 0⟩] =
        [Guard.Effect.setRecord url (score url),
         Guard.Effect.redirect tab Guard.blockedPageUrl]) ∧
    (∀ (score : String → Ext.ScanResult) (s : Guard.GuardState)
      (e : Guard.NavEvent), e.tabId ∈ s.blockedTabs →
      Guard.handleNavigation score s e = (s, [], [])) := by
  constructor
  · intro score tab url n hweb hphish
    show Guard.runQueue score (Nat.succ (n + 1)) {} [⟨tab, url, 0⟩] = _
    unfold Guard.runQueue
    have hstep : Guard.dispatchEvent score {} ⟨tab, url, 0⟩ =
        ({ pendingNavigations := [(tab, url)], blockedTabs := [tab] },
         [Guard.Effect.setRecord url (score url),
          Guard.Effect.redirect tab Guard.blockedPageUrl],
         [⟨tab, Guard.blockedPageUrl, 0⟩]) := by
      unfold Guard.dispatchEvent Guard.handleNavigation Guard.blockNavigation
      simp [hweb, hphish]
    rw [hstep]
    dsimp only
    show _ ++ Guard.runQueue score (Nat.succ n) _ [⟨tab, Guard.blockedPageUrl, 0⟩] = _
    unfold Guard.runQueue
    have hstep2 : Guard.dispatchEvent score
        { pendingNavigations := [(tab, url)], blockedTabs := [tab] }
        ⟨tab, Guard.blockedPageUrl, 0⟩ =
        ({ pendingNavigations := [(tab, url)], blockedTabs := [tab] }, [], []) := by
      unfold Guard.dispatchEvent
      rw [isWebScheme_blockedPageUrl]
      simp
    rw [hstep2]
    dsimp only
    simp [runQueue_empty]
  · intro score s e htab
    unfold Guard.handleNavigation
    by_cases hf : e.frameId ≠ 0
    · rw [if_pos hf]
    · rw [if_neg hf, if_pos htab]

/-- C4 witness: a concrete always-Phishing scorer on
`http://evil.test/` yields exactly the two effects, and a concrete
blocked-tab event is dropped. -/
theorem phishing_block_exactly_one_redirect_witness :
    (Guard.isWebScheme "http://evil.test/" = true ∧
      ((fun url => ({ url := url, classification := "Phishing" } :
        Ext.ScanResult)) "http://evil.test/").classification = "Phishing" ∧
      Guard.runQueue
        (fun url => ({ url := url, classification := "Phishing" } :
          Ext.ScanResult)) 2 {} [⟨7, "http://evil.test/", 0⟩] =
        [Guard.Effect.setRecord "http://evil.test/"
          ((fun url => ({ url := url, classification := "Phishing" } :
            Ext.ScanResult)) "http://evil.test/"),
         Guard.Effect.redirect 7 Guard.blockedPageUrl]) ∧
    ((7 : ℕ) ∈ (Guard.GuardState.mk [] [7]).blockedTabs ∧
      Guard.handleNavigation
        (fun url => ({ url := url, classification := "Phishing" } :
          Ext.ScanResult)) (Guard.GuardState.mk [] [7])
        ⟨7, "http://x.test/", 0⟩ = (Guard.GuardState.mk [] [7], [], [])) :=
  ⟨⟨by decide, rfl,
    phishing_block_exactly_one_redirect.1
      (fun url => ({ url := url, classification := "Phishing" } :
        Ext.ScanResult)) 7 "http://evil.test/" 0 (by decide) rfl⟩,
   ⟨by decide,
    phishing_block_exactly_one_redirect.2
      (fun url => ({ url := url, classification := "Phishing" } :
        Ext.ScanResult)) (Guard.GuardState.mk [] [7])
      ⟨7, "http://x.test/", 0⟩ (by decide)⟩⟩

/-- C9 counterexample: block records are not tab-scoped — two Phishing
blocks in distinct tabs (tab 1 at `http://a.test/`, then tab 2 at
`http://b.test/`) leave the single `lastDetection` storage key holding
only tab 2's record; tab 1's record has been overwritten and no stored
record for `http://a.test/` remains for tab 1's warning page to read. -/
theorem blockrecord_not_tab_scoped_counterexample :
    (Guard.applyEffects 0 none
      (Guard.runQueue
        (fun url => ({ url := url, classification := "Phishing" } :
          Ext.ScanResult)) 4
        {} [⟨1, "http://a.test/", 0⟩, ⟨2, "http://b.test/", 0⟩])).map
      Guard.BlockRecord.originalUrl = some "http://b.test/" ∧
    ¬ ∃ rec : Guard.BlockRecord,
      Guard.applyEffects 0 none
        (Guard.runQueue
          (fun url => ({ url := url, classification := "Phishing" } :
            Ext.ScanResult)) 4
          {} [⟨1, "http://a.test/", 0⟩, ⟨2, "http://b.test/", 0⟩]) = some rec ∧
      rec.originalUrl = "http://a.test/" := by
  have hmap : (Guard.applyEffects 0 none
      (Guard.runQueue
        (fun url => ({ url := url, classification := "Phishing" } :
          Ext.ScanResult)) 4
        {} [⟨1, "http://a.test/", 0⟩, ⟨2, "http://b.test/", 0⟩])).map
      Guard.BlockRecord.originalUrl = some "http://b.test/" := by decide
  refine ⟨hmap, ?_⟩
  rintro ⟨rec, hrec, hurl⟩
  rw [hrec] at hmap
  simp only [Option.map_some'] at hmap
  rw [hurl] at hmap
  exact absurd hmap (by decide)

/-- C9 (amended): the BlockRecord is kept in a single global durable
key (`lastDetection`), not a tab-scoped store — so at most one block
record is live at any time across all tabs, and applying any sequence
of block/redirect effects leaves exactly the record of the most recent
block (in whatever tab it occurred), overwriting records written by
earlier blocks in other tabs; the Warning Surface therefore reads the
most recently written record. -/
theorem blockrecord_global_last_writer :
    ∀ (now : ℤ) (st : Guard.Storage) (effects : List Guard.Effect),
      Guard.applyEffects now st effects =
        match Guard.lastSetRecord effects with
        | some p => some (Guard.mkDetection p.1 p.2 now)
        | none => st := by
  intro now st effects
  induction effects generalizing st with
  | nil => rfl
  | cons e t ih =>
    cases e with
    | setRecord url r =>
      show Guard.applyEffects now (some (Guard.mkDetection url r now)) t = _
      rw [ih]
      cases h : Guard.lastSetRecord t with
      | none => simp [Guard.lastSetRecord, h]
      | some p => simp [Guard.lastSetRecord, h]
    | redirect a b =>
      show Guard.applyEffects now st t = _
      rw [ih]
      rfl
